import Mathlib

/-!
TarZstWriter (tarzst.go): a layered tar-over-zstd streaming writer.

Shallow embedding of `src/tarzst.go`.

The three stages (`*os.File`, `*zstd.Encoder`, `*tar.Writer`) and the
filesystem are external collaborators.  Every call the program makes to one
of them is appended to a trace, and the value the call returns is given by an
environment `Env` that may depend on the whole history of calls made so far.
The program itself is written in explicit state-passing style over the trace.

The `error` values of Go are modelled by `GoError`, a `nil` error by `none`.
-/

namespace TarZst

/-! ## Go errors -/

/-- Go error values: the sentinel `io.EOF` (a value of its own, so that the
identity test `er == io.EOF` is a test on the constructor), an underlying
cause given by its message (also one made by `errors.New("EOF")`, which is
not `io.EOF`), the result of `fmt.Errorf` with a single `%w` verb (the text
before the verb and the wrapped error), and the result of `errors.Join` (the
list of joined errors). -/
inductive GoError where
  | eof
  | base (msg : String)
  | wrap (pre : String) (cause : GoError)
  | join (errs : List GoError)
deriving Repr

mutual
/-- The `Error()` method: the message of an error. -/
def GoError.Error : GoError → String
  | .eof => "EOF"
  | .base m => m
  | .wrap p c => p ++ c.Error
  | .join es => "\n".intercalate (GoError.ErrorList es)
/-- Messages of a list of errors. -/
def GoError.ErrorList : List GoError → List String
  | [] => []
  | e :: es => e.Error :: GoError.ErrorList es
end

mutual
/-- The errors visited by `errors.Is` / `errors.As`: the error itself followed
by everything reachable through `Unwrap() error` and `Unwrap() []error`,
depth first. -/
def GoError.chain : GoError → List GoError
  | .eof => [.eof]
  | .base m => [.base m]
  | .wrap p c => .wrap p c :: c.chain
  | .join es => .join es :: GoError.chainList es
/-- Chains of a list of errors, concatenated. -/
def GoError.chainList : List GoError → List GoError
  | [] => []
  | e :: es => e.chain ++ GoError.chainList es
end

/-- The sentinel `io.EOF`. -/
def EOF : GoError := .eof

/-- The sentinel `io.ErrShortWrite`. -/
def ErrShortWrite : GoError := .base "short write"

/-- The sentinel `io.errInvalidWrite`. -/
def errInvalidWrite : GoError := .base "invalid write result"

/-- The test `er == io.EOF`: identity with the sentinel, not a test on the
message. -/
def GoError.isEOF : GoError → Bool
  | .eof => true
  | _ => false

/-- `fmt.Errorf(pre + "%w", err)` for a non-nil `err`. -/
def fmtErrorf (pre : String) (err : GoError) : GoError := .wrap pre err

/-- `errors.Join(errs...)`: nil values are discarded; the result is nil when
every argument is nil. -/
def errorsJoin (errs : List (Option GoError)) : Option GoError :=
  let es := errs.filterMap id
  if es.isEmpty then none else some (.join es)

/-! ## Data model -/

/-- The fields of `tar.Header` the program sets. -/
structure Header where
  Name : String
  Mode : Int
  Size : Int
  Linkname : String
deriving DecidableEq, Repr

/-- The bit `os.ModeSymlink` of an `fs.FileMode` (`1 << 27`). -/
def ModeSymlink : Nat := 134217728

/-- The part of `fs.FileInfo` the program reads: `Mode()` (a `uint32`) and
`Size()` (an `int64`). -/
structure FileInfo where
  mode : Nat
  size : Int
deriving DecidableEq, Repr

/-- One result `(n, err)` of `Read`: the `n` bytes read and the error. -/
structure ReadResult where
  data : List UInt8
  err : Option GoError

/-- An `io.Reader` with a finite run: the results of its successive `Read`
calls; once they are used up `Read` returns `(0, io.EOF)`. -/
abbrev Reader := List ReadResult

/-- An `*os.File`: the name it was opened with and its descriptor. -/
structure File where
  name : String
  fd : Nat
deriving DecidableEq, Repr

/-- Encoder levels of the zstd package. -/
inductive EncoderLevel where
  | SpeedFastest
  | SpeedDefault
  | SpeedBetterCompression
  | SpeedBestCompression
deriving DecidableEq, Repr

/-- A `zstd.EOption`. -/
inductive EOption where
  | WithEncoderLevel (l : EncoderLevel)
  | other (id : Nat)
deriving DecidableEq, Repr

/-- A `*zstd.Encoder`: the writer it emits to and its options. -/
structure Encoder where
  w : File
  opts : List EOption
deriving DecidableEq, Repr

/-- A `*tar.Writer`: the writer it emits to. -/
structure TarWriter where
  w : Encoder
deriving DecidableEq, Repr

/-- The struct `TarZstWriter`. -/
structure TarZstWriter where
  file : File
  zstWr : Encoder
  tarWr : TarWriter
deriving DecidableEq, Repr

/-! ## Calls to the collaborators -/

/-- A call made to a stage or to the operating system. -/
inductive Call where
  | tarWriteHeader (tw : TarWriter) (h : Header)
  | tarWrite (tw : TarWriter) (p : List UInt8)
  | tarFlush (tw : TarWriter)
  | tarClose (tw : TarWriter)
  | zstClose (zw : Encoder)
  | fileClose (f : File)
  | osOpen (fn : String)
  | osLstat (fn : String)
  | osReadlink (fn : String)
  | osMkdirAll (dir : String) (perm : Nat)
  | osCreate (fn : String)
  | zstdNewWriter (w : File) (opts : List EOption)
deriving DecidableEq, Repr

/-- The history of calls, oldest first. -/
abbrev Trace := List Call

/-- Whether the call is `(*os.File).Close`. -/
def Call.isFileClose : Call → Bool
  | .fileClose _ => true
  | _ => false

/-- What the collaborators answer, given the history before the call. -/
structure Env where
  tarWriteHeader : Trace → TarWriter → Header → Option GoError
  tarWrite : Trace → TarWriter → List UInt8 → Int × Option GoError
  tarFlush : Trace → TarWriter → Option GoError
  tarClose : Trace → TarWriter → Option GoError
  zstClose : Trace → Encoder → Option GoError
  fileClose : Trace → File → Option GoError
  osOpen : Trace → String → Except GoError File
  osLstat : Trace → String → Except GoError FileInfo
  osReadlink : Trace → String → Except GoError String
  osMkdirAll : Trace → String → Nat → Option GoError
  osCreate : Trace → String → Except GoError File
  zstdNewWriter : Trace → File → List EOption → Option GoError
  fileReads : File → Reader
  filepathDir : String → String

/-- The call `tw.WriteHeader(h)`. -/
def tarWrWriteHeader (env : Env) (tw : TarWriter) (h : Header) (tr : Trace) :
    Option GoError × Trace :=
  (env.tarWriteHeader tr tw h, tr ++ [Call.tarWriteHeader tw h])

/-- The call `tw.Write(p)`. -/
def tarWrWrite (env : Env) (tw : TarWriter) (p : List UInt8) (tr : Trace) :
    (Int × Option GoError) × Trace :=
  (env.tarWrite tr tw p, tr ++ [Call.tarWrite tw p])

/-- The call `tw.Flush()`. -/
def tarWrFlush (env : Env) (tw : TarWriter) (tr : Trace) : Option GoError × Trace :=
  (env.tarFlush tr tw, tr ++ [Call.tarFlush tw])

/-- The call `tw.Close()`. -/
def tarWrClose (env : Env) (tw : TarWriter) (tr : Trace) : Option GoError × Trace :=
  (env.tarClose tr tw, tr ++ [Call.tarClose tw])

/-- The call `zw.Close()`. -/
def zstWrClose (env : Env) (zw : Encoder) (tr : Trace) : Option GoError × Trace :=
  (env.zstClose tr zw, tr ++ [Call.zstClose zw])

/-- The call `f.Close()`. -/
def fileClose (env : Env) (f : File) (tr : Trace) : Option GoError × Trace :=
  (env.fileClose tr f, tr ++ [Call.fileClose f])

/-- The call `os.Open(fn)`. -/
def osOpen (env : Env) (fn : String) (tr : Trace) : Except GoError File × Trace :=
  (env.osOpen tr fn, tr ++ [Call.osOpen fn])

/-- The call `os.Lstat(fn)`. -/
def osLstat (env : Env) (fn : String) (tr : Trace) : Except GoError FileInfo × Trace :=
  (env.osLstat tr fn, tr ++ [Call.osLstat fn])

/-- The call `os.Readlink(fn)`. -/
def osReadlink (env : Env) (fn : String) (tr : Trace) : Except GoError String × Trace :=
  (env.osReadlink tr fn, tr ++ [Call.osReadlink fn])

/-- The call `os.MkdirAll(dir, perm)`. -/
def osMkdirAll (env : Env) (dir : String) (perm : Nat) (tr : Trace) :
    Option GoError × Trace :=
  (env.osMkdirAll tr dir perm, tr ++ [Call.osMkdirAll dir perm])

/-- The call `os.Create(fn)`. -/
def osCreate (env : Env) (fn : String) (tr : Trace) : Except GoError File × Trace :=
  (env.osCreate tr fn, tr ++ [Call.osCreate fn])

/-- The call `zstd.NewWriter(w, opts...)`: on success the encoder is bound to
`w` and carries the options. -/
def zstdNewWriter (env : Env) (w : File) (opts : List EOption) (tr : Trace) :
    Except GoError Encoder × Trace :=
  (match env.zstdNewWriter tr w opts with
    | some err => .error err
    | none => .ok ⟨w, opts⟩,
   tr ++ [Call.zstdNewWriter w opts])

/-- The constructor `tar.NewWriter(w)`. -/
def tarNewWriter (w : Encoder) : TarWriter := ⟨w⟩

/-! ## io.Copy -/

/-- The write half of one iteration of the loop of `io.Copy`: when the read
gave bytes, write them to the framer and check the count written. -/
def ioCopyWrite (env : Env) (tw : TarWriter) (data : List UInt8) (written : Int)
    (tr : Trace) : (Int × Option GoError) × Trace :=
  if 0 < data.length then
    match tarWrWrite env tw data tr with
    | ((nw, ew), tr) =>
      let nr : Int := data.length
      let bad : Bool := decide (nw < 0) || decide (nr < nw)
      let nw1 : Int := if bad then 0 else nw
      let ew1 : Option GoError := if bad && ew.isNone then some errInvalidWrite else ew
      match ew1 with
      | some e => ((written + nw1, some e), tr)
      | none =>
        if nr ≠ nw1 then ((written + nw1, some ErrShortWrite), tr)
        else ((written + nw1, none), tr)
  else ((written, none), tr)

/-- The loop of `io.Copy(tw, r)`: read, write what was read, stop at the
first write error, short write or read error; `io.EOF` from the reader ends
the copy without error. -/
def ioCopyLoop (env : Env) (tw : TarWriter) : Reader → Int → Trace →
    (Int × Option GoError) × Trace
  | [], written, tr => ((written, none), tr)
  | rd :: rest, written, tr =>
    match ioCopyWrite env tw rd.data written tr with
    | ((written, some ew), tr) => ((written, some ew), tr)
    | ((written, none), tr) =>
      match rd.err with
      | some er => ((written, if er.isEOF then none else some er), tr)
      | none => ioCopyLoop env tw rest written tr

/-- The call `io.Copy(tw, r)`, as the generic read/write loop (the framer
has no `ReadFrom`). -/
def ioCopy (env : Env) (tw : TarWriter) (r : Reader) (tr : Trace) :
    (Int × Option GoError) × Trace :=
  ioCopyLoop env tw r 0 tr

/-- The bytes a reader delivers up to its first error (or its end). -/
def Reader.content : Reader → List UInt8
  | [] => []
  | rd :: rest =>
    match rd.err with
    | some _ => rd.data
    | none => rd.data ++ Reader.content rest

/-- The first error the reader returns; `io.EOF` once its results are used
up. -/
def Reader.firstErr : Reader → GoError
  | [] => EOF
  | rd :: rest =>
    match rd.err with
    | some e => e
    | none => Reader.firstErr rest

/-- The payloads of the framer `Write` calls of a trace, concatenated. -/
def writtenBytes : Trace → List UInt8
  | [] => []
  | Call.tarWrite _ p :: rest => p ++ writtenBytes rest
  | _ :: rest => writtenBytes rest

/-! ## The program -/

/-- The method `TarZstWriter.Append`. -/
def Append (env : Env) (tzw : TarZstWriter) (h : Header) (r : Reader) (tr : Trace) :
    Option GoError × Trace :=
  match tarWrWriteHeader env tzw.tarWr h tr with
  | (some err, tr) => (some (fmtErrorf "TarZstWriter.Append: header: " err), tr)
  | (none, tr) =>
    match ioCopy env tzw.tarWr r tr with
    | ((_, some err), tr) => (some (fmtErrorf "TarZstWriter.Append: copy: " err), tr)
    | ((_, none), tr) =>
      match tarWrFlush env tzw.tarWr tr with
      | (some err, tr) => (some (fmtErrorf "TarZstWriter.Append: copy: " err), tr)
      | (none, tr) => (none, tr)

/-- The body of `TarZstWriter.AppendFile` after the source has been opened
(the code between `defer f.Close()` and the return). -/
def AppendFileBody (env : Env) (tzw : TarZstWriter) (dstPth srcFn : String) (f : File)
    (tr : Trace) : Option GoError × Trace :=
  match osLstat env srcFn tr with
  | (.error err, tr) => (some (fmtErrorf "TarZstWriter.AppendFile: stat: " err), tr)
  | (.ok fi, tr) =>
    let h : Header :=
      { Name := dstPth, Mode := Int.ofNat fi.mode, Size := fi.size, Linkname := "" }
    if fi.mode &&& ModeSymlink ≠ 0 then
      match osReadlink env srcFn tr with
      | (.error err, tr) =>
        (some (fmtErrorf "TarZstWriter.AppendFile: read symlink: " err), tr)
      | (.ok nm, tr) =>
        let h : Header := { h with Linkname := nm }
        match Append env tzw h (env.fileReads f) tr with
        | (some err, tr) => (some (fmtErrorf "TarZstWriter.AppendFile: " err), tr)
        | (none, tr) => (none, tr)
    else
      match Append env tzw h (env.fileReads f) tr with
      | (some err, tr) => (some (fmtErrorf "TarZstWriter.AppendFile: " err), tr)
      | (none, tr) => (none, tr)

/-- The method `TarZstWriter.AppendFile`; the deferred `f.Close()` runs after
the body, its result is discarded. -/
def AppendFile (env : Env) (tzw : TarZstWriter) (dstPth srcFn : String) (tr : Trace) :
    Option GoError × Trace :=
  match osOpen env srcFn tr with
  | (.error err, tr) =>
    (some (fmtErrorf ("TarZstWriter.AppendFile: open \x60" ++ srcFn ++ "\x60: ") err), tr)
  | (.ok f, tr) =>
    match AppendFileBody env tzw dstPth srcFn f tr with
    | (res, tr) =>
      match fileClose env f tr with
      | (_, tr) => (res, tr)

/-- The method `TarZstWriter.Close`. -/
def Close (env : Env) (tzw : TarZstWriter) (tr : Trace) : Option GoError × Trace :=
  match tarWrClose env tzw.tarWr tr with
  | (te, tr) =>
    match zstWrClose env tzw.zstWr tr with
    | (ze, tr) =>
      match fileClose env tzw.file tr with
      | (fe, tr) =>
        let err : Option GoError := none
        let err : Option GoError :=
          match te with
          | some te => errorsJoin [some (fmtErrorf "TarZstWriter.Close: tar: " te)]
          | none => err
        let err : Option GoError :=
          match ze with
          | some ze => errorsJoin [some (fmtErrorf "TarZstWriter.Close: zst: " ze)]
          | none => err
        let err : Option GoError :=
          match fe with
          | some fe => errorsJoin [some (fmtErrorf "TarZstWriter.Close: file: " fe)]
          | none => err
        (err, tr)

/-- The function `createTarZst`; `opts = none` is the nil option slice. The
result is the pair `(*TarZstWriter, error)`. -/
def createTarZst (env : Env) (fn : String) (opts : Option (List EOption)) (tr : Trace) :
    (Option TarZstWriter × Option GoError) × Trace :=
  let opts : List EOption :=
    match opts with
    | none => [EOption.WithEncoderLevel EncoderLevel.SpeedBestCompression]
    | some o => o
  match osMkdirAll env (env.filepathDir fn) 493 tr with
  | (_, tr) =>
    match osCreate env fn tr with
    | (.error err, tr) =>
      ((none, some (fmtErrorf "createTarZst: create output file: " err)), tr)
    | (.ok file, tr) =>
      match zstdNewWriter env file opts tr with
      | (.error err, tr) =>
        match fileClose env file tr with
        | (_, tr) =>
          ((none, some (fmtErrorf "createTarZst: create zstd writer: " err)), tr)
      | (.ok zstWr, tr) =>
        let tzw : TarZstWriter :=
          { file := file, zstWr := zstWr, tarWr := tarNewWriter zstWr }
        ((some tzw, none), tr)

/-! ## Concrete environments -/

/-- An environment in which every call succeeds and every write is complete. -/
def okEnv : Env where
  tarWriteHeader := fun _ _ _ => none
  tarWrite := fun _ _ p => (p.length, none)
  tarFlush := fun _ _ => none
  tarClose := fun _ _ => none
  zstClose := fun _ _ => none
  fileClose := fun _ _ => none
  osOpen := fun _ fn => .ok ⟨fn, 3⟩
  osLstat := fun _ _ => .ok ⟨420, 2⟩
  osReadlink := fun _ _ => .error (.base "invalid argument")
  osMkdirAll := fun _ _ _ => none
  osCreate := fun _ fn => .ok ⟨fn, 3⟩
  zstdNewWriter := fun _ _ _ => none
  fileReads := fun _ => [⟨[104, 105], none⟩]
  filepathDir := fun _ => "."

/-- A writer over the file `out.tar.zst`, as `createTarZst` assembles it. -/
def tzw0 : TarZstWriter :=
  { file := ⟨"out.tar.zst", 3⟩
    zstWr := ⟨⟨"out.tar.zst", 3⟩, []⟩
    tarWr := ⟨⟨⟨"out.tar.zst", 3⟩, []⟩⟩ }

/-- The framer finalizer and the sink finalizer fail, the compressor
finalizer succeeds. -/
def closeEnvTF : Env :=
  { okEnv with
    tarClose := fun _ _ => some (.base "t")
    fileClose := fun _ _ => some (.base "f") }

/-- The framer accepts header and content and fails at `Flush`. -/
def flushFailEnv : Env :=
  { okEnv with tarFlush := fun _ _ => some (.base "disk full") }

/-- The framer accepts the header and fails at `Write`. -/
def copyFailEnv : Env :=
  { okEnv with tarWrite := fun _ _ _ => (0, some (.base "disk full")) }

/-- A two-byte entry header. -/
def h0 : Header := { Name := "a.txt", Mode := 420, Size := 2, Linkname := "" }

/-- A reader that gives two bytes and then `io.EOF`. -/
def r0 : Reader := [⟨[104, 105], none⟩, ⟨[], some EOF⟩]

/-- The headers of the framer `WriteHeader` calls of a trace, in order. -/
def headersWritten : Trace → List Header
  | [] => []
  | Call.tarWriteHeader _ h :: rest => h :: headersWritten rest
  | _ :: rest => headersWritten rest

/-- The source `/src/lnk` is a symbolic link to the file `abc` of ten bytes:
`Lstat` reports the link bit with permissions `0777` and the size of the link
itself (3, the length of its target string), `Readlink` returns `abc`, and
reading the opened file gives the ten bytes of the target (`os.Open` follows
the link). The framer behaves as `tar.Writer` does for an entry declared with
3 bytes: a longer write takes 3 bytes and fails with `ErrWriteTooLong`. -/
def symlinkEnv : Env :=
  { okEnv with
    osOpen := fun _ fn => .ok ⟨fn, 4⟩
    fileReads := fun _ => [⟨[48, 49, 50, 51, 52, 53, 54, 55, 56, 57], none⟩]
    osLstat := fun _ _ => .ok ⟨134218239, 3⟩
    osReadlink := fun _ _ => .ok "abc"
    tarWrite := fun _ _ p =>
      if 3 < p.length then (3, some (.base "archive/tar: write too long"))
      else (p.length, none) }

/-- A reader whose read gives two bytes together with an error made by
`errors.New("EOF")`, which prints like `io.EOF` but is another value. -/
def rLookalike : Reader := [⟨[104, 105], some (.base "EOF")⟩]

/-- Creating the destination succeeds, initializing the compressor fails. -/
def zstdFailEnv : Env :=
  { okEnv with zstdNewWriter := fun _ _ _ => some (.base "bad option") }

/-! ## Lemmas -/

theorem ioCopyWrite_trace (env : Env) (tw : TarWriter) (data : List UInt8) (written : Int)
    (tr : Trace) :
    (ioCopyWrite env tw data written tr).2 =
      if 0 < data.length then tr ++ [Call.tarWrite tw data] else tr := by
  unfold ioCopyWrite tarWrWrite
  split
  · simp only []
    split
    · rfl
    · split <;> (split <;> rfl)
  · rfl

theorem writtenBytes_append (a b : Trace) :
    writtenBytes (a ++ b) = writtenBytes a ++ writtenBytes b := by
  induction a with
  | nil => rfl
  | cons c rest ih => cases c <;> simp [writtenBytes, ih]

theorem ioCopyLoop_spec (env : Env) (tw : TarWriter) (r : Reader) :
    ∀ (written : Int) (tr : Trace),
      ∃ ws : List (List UInt8),
        (ioCopyLoop env tw r written tr).2 = tr ++ ws.map (Call.tarWrite tw) ∧
        ((ioCopyLoop env tw r written tr).1.2 = none →
          writtenBytes (ws.map (Call.tarWrite tw)) = Reader.content r ∧
          Reader.firstErr r = EOF) := by
  induction r with
  | nil => intro written tr; exact ⟨[], by simp [ioCopyLoop], fun _ => ⟨rfl, rfl⟩⟩
  | cons rd rest ih =>
    intro written tr
    have htr := ioCopyWrite_trace env tw rd.data written tr
    rcases hw : ioCopyWrite env tw rd.data written tr with ⟨⟨w1, e1⟩, t1⟩
    rw [hw] at htr
    simp only at htr
    have hws : ∃ ws1 : List (List UInt8), t1 = tr ++ ws1.map (Call.tarWrite tw) ∧
        writtenBytes (ws1.map (Call.tarWrite tw)) = rd.data := by
      by_cases hlen : 0 < rd.data.length
      · exact ⟨[rd.data], by simp [htr, hlen], by simp [writtenBytes]⟩
      · refine ⟨[], by simp [htr, hlen], ?_⟩
        have : rd.data = [] := by
          cases hd : rd.data with
          | nil => rfl
          | cons a l => simp [hd] at hlen
        simp [writtenBytes, this]
    obtain ⟨ws1, hws1, hbytes1⟩ := hws
    clear htr
    subst hws1
    cases e1 with
    | some ew =>
      refine ⟨ws1, by simp [ioCopyLoop, hw], ?_⟩
      simp [ioCopyLoop, hw]
    | none =>
      cases herr : rd.err with
      | some er =>
        refine ⟨ws1, by simp [ioCopyLoop, hw, herr], ?_⟩
        intro hnone
        simp only [ioCopyLoop, hw, herr] at hnone
        refine ⟨by simp [Reader.content, herr, hbytes1], ?_⟩
        cases er <;> simp [GoError.isEOF] at hnone
        simp [Reader.firstErr, herr, EOF]
      | none =>
        obtain ⟨ws2, h2, hb2⟩ := ih w1 (tr ++ ws1.map (Call.tarWrite tw))
        refine ⟨ws1 ++ ws2, ?_, ?_⟩
        · simp [ioCopyLoop, hw, herr, h2]
        · intro hnone
          simp only [ioCopyLoop, hw, herr] at hnone
          refine ⟨?_, ?_⟩
          · simp [Reader.content, herr, List.map_append, writtenBytes_append, hbytes1,
              (hb2 hnone).1]
          · simp [Reader.firstErr, herr, (hb2 hnone).2]

theorem headersWritten_append (a b : Trace) :
    headersWritten (a ++ b) = headersWritten a ++ headersWritten b := by
  induction a with
  | nil => rfl
  | cons c rest ih => cases c <;> simp [headersWritten, ih]

theorem headersWritten_writes (tw : TarWriter) (ws : List (List UInt8)) :
    headersWritten (ws.map (Call.tarWrite tw)) = [] := by
  induction ws with
  | nil => rfl
  | cons w rest ih => simpa [headersWritten] using ih

theorem ioCopy_spec (env : Env) (tw : TarWriter) (r : Reader) (tr : Trace) :
    ∃ ws : List (List UInt8),
      (ioCopy env tw r tr).2 = tr ++ ws.map (Call.tarWrite tw) ∧
      ((ioCopy env tw r tr).1.2 = none →
        writtenBytes (ws.map (Call.tarWrite tw)) = Reader.content r ∧
        Reader.firstErr r = EOF) :=
  ioCopyLoop_spec env tw r 0 tr

/-- What `Append` returns and the trace it leaves, by the outcome of its
three sub-steps. -/
theorem Append_eq (env : Env) (tzw : TarZstWriter) (h : Header) (r : Reader) (tr : Trace) :
    Append env tzw h r tr =
      match env.tarWriteHeader tr tzw.tarWr h with
      | some err =>
        (some (fmtErrorf "TarZstWriter.Append: header: " err),
          tr ++ [Call.tarWriteHeader tzw.tarWr h])
      | none =>
        match (ioCopy env tzw.tarWr r (tr ++ [Call.tarWriteHeader tzw.tarWr h])).1.2 with
        | some err =>
          (some (fmtErrorf "TarZstWriter.Append: copy: " err),
            (ioCopy env tzw.tarWr r (tr ++ [Call.tarWriteHeader tzw.tarWr h])).2)
        | none =>
          match env.tarFlush
              (ioCopy env tzw.tarWr r (tr ++ [Call.tarWriteHeader tzw.tarWr h])).2
              tzw.tarWr with
          | some err =>
            (some (fmtErrorf "TarZstWriter.Append: copy: " err),
              (ioCopy env tzw.tarWr r (tr ++ [Call.tarWriteHeader tzw.tarWr h])).2 ++
                [Call.tarFlush tzw.tarWr])
          | none =>
            (none,
              (ioCopy env tzw.tarWr r (tr ++ [Call.tarWriteHeader tzw.tarWr h])).2 ++
                [Call.tarFlush tzw.tarWr]) := by
  unfold Append tarWrWriteHeader tarWrFlush
  cases hh : env.tarWriteHeader tr tzw.tarWr h with
  | some e => rfl
  | none =>
    simp only []
    rcases hc : ioCopy env tzw.tarWr r (tr ++ [Call.tarWriteHeader tzw.tarWr h]) with
      ⟨⟨n, ce⟩, t2⟩
    cases ce with
    | some e => rfl
    | none =>
      simp only []
      cases hf : env.tarFlush t2 tzw.tarWr <;> rfl

/-- The calls `Append` makes: `WriteHeader` first, then only `Write` and at
most one `Flush`. -/
theorem Append_trace (env : Env) (tzw : TarZstWriter) (h : Header) (r : Reader)
    (tr : Trace) :
    ∃ rest : Trace,
      (Append env tzw h r tr).2 = tr ++ Call.tarWriteHeader tzw.tarWr h :: rest ∧
      headersWritten rest = [] ∧ ∀ c ∈ rest, c.isFileClose = false := by
  obtain ⟨ws, hws, -⟩ := ioCopy_spec env tzw.tarWr r (tr ++ [Call.tarWriteHeader tzw.tarWr h])
  have hnc : ∀ c ∈ ws.map (Call.tarWrite tzw.tarWr), c.isFileClose = false := by
    intro c hc
    obtain ⟨w, -, rfl⟩ := List.mem_map.mp hc
    rfl
  rw [Append_eq]
  cases env.tarWriteHeader tr tzw.tarWr h with
  | some e => exact ⟨[], by simp, rfl, by simp⟩
  | none =>
    simp only []
    cases (ioCopy env tzw.tarWr r (tr ++ [Call.tarWriteHeader tzw.tarWr h])).1.2 with
    | some e =>
      exact ⟨ws.map (Call.tarWrite tzw.tarWr), by simp [hws],
        headersWritten_writes _ _, hnc⟩
    | none =>
      simp only []
      have hfl : ∃ rest : Trace,
          (ioCopy env tzw.tarWr r (tr ++ [Call.tarWriteHeader tzw.tarWr h])).2 ++
              [Call.tarFlush tzw.tarWr] = tr ++ Call.tarWriteHeader tzw.tarWr h :: rest ∧
          headersWritten rest = [] ∧ ∀ c ∈ rest, c.isFileClose = false := by
        refine ⟨ws.map (Call.tarWrite tzw.tarWr) ++ [Call.tarFlush tzw.tarWr], by simp [hws],
          by simp [headersWritten_append, headersWritten_writes, headersWritten], ?_⟩
        intro c hc
        rcases List.mem_append.mp hc with hc | hc
        · exact hnc c hc
        · simp at hc; subst hc; rfl
      cases env.tarFlush (ioCopy env tzw.tarWr r (tr ++ [Call.tarWriteHeader tzw.tarWr h])).2
          tzw.tarWr <;> exact hfl

theorem wrapResult_snd (pre : String) (p : Option GoError × Trace) :
    (match p with
      | (some err, tr) => (some (fmtErrorf pre err), tr)
      | (none, tr) => (none, tr)).2 = p.2 := by
  rcases p with ⟨_ | _, _⟩ <;> rfl

/-- The calls of the body of `AppendFile`: no file is closed, and the header
written is the one built from the destination path, the `Lstat` result and
the `Readlink` result (none when `Readlink` is needed and fails). -/
theorem AppendFileBody_trace (env : Env) (tzw : TarZstWriter) (dstPth srcFn : String)
    (f : File) (tr : Trace) :
    ∃ mid : Trace,
      (AppendFileBody env tzw dstPth srcFn f tr).2 = tr ++ mid ∧
      (∀ c ∈ mid, c.isFileClose = false) ∧
      headersWritten mid =
        match env.osLstat tr srcFn with
        | .error _ => []
        | .ok fi =>
          if fi.mode &&& ModeSymlink ≠ 0 then
            match env.osReadlink (tr ++ [Call.osLstat srcFn]) srcFn with
            | .error _ => []
            | .ok nm =>
              [{ Name := dstPth, Mode := Int.ofNat fi.mode, Size := fi.size, Linkname := nm }]
          else
            [{ Name := dstPth, Mode := Int.ofNat fi.mode, Size := fi.size, Linkname := "" }] := by
  unfold AppendFileBody osLstat osReadlink
  cases hst : env.osLstat tr srcFn with
  | error e => exact ⟨[Call.osLstat srcFn], rfl, by simp [Call.isFileClose], rfl⟩
  | ok fi =>
    by_cases hsym : fi.mode &&& ModeSymlink ≠ 0
    · simp only [if_pos hsym]
      cases hrl : env.osReadlink (tr ++ [Call.osLstat srcFn]) srcFn with
      | error e =>
        exact ⟨[Call.osLstat srcFn, Call.osReadlink srcFn], by simp,
          by simp [Call.isFileClose], rfl⟩
      | ok nm =>
        obtain ⟨rest, htr, hh, hc⟩ := Append_trace env tzw
          { Name := dstPth, Mode := Int.ofNat fi.mode, Size := fi.size, Linkname := nm }
          (env.fileReads f) (tr ++ [Call.osLstat srcFn] ++ [Call.osReadlink srcFn])
        refine ⟨Call.osLstat srcFn :: Call.osReadlink srcFn ::
          Call.tarWriteHeader tzw.tarWr
            { Name := dstPth, Mode := Int.ofNat fi.mode, Size := fi.size, Linkname := nm } ::
          rest, ?_, ?_, ?_⟩
        · simp only [wrapResult_snd]
          rw [htr]
          simp
        · intro c hmem
          simp only [List.mem_cons] at hmem
          rcases hmem with rfl | rfl | rfl | hmem
          · rfl
          · rfl
          · rfl
          · exact hc c hmem
        · simp [headersWritten, hh]
    · simp only [if_neg hsym]
      obtain ⟨rest, htr, hh, hc⟩ := Append_trace env tzw
        { Name := dstPth, Mode := Int.ofNat fi.mode, Size := fi.size, Linkname := "" }
        (env.fileReads f) (tr ++ [Call.osLstat srcFn])
      refine ⟨Call.osLstat srcFn ::
        Call.tarWriteHeader tzw.tarWr
          { Name := dstPth, Mode := Int.ofNat fi.mode, Size := fi.size, Linkname := "" } ::
        rest, ?_, ?_, ?_⟩
      · simp only [wrapResult_snd]
        rw [htr]
        simp
      · intro c hmem
        simp only [List.mem_cons] at hmem
        rcases hmem with rfl | rfl | hmem
        · rfl
        · rfl
        · exact hc c hmem
      · simp [headersWritten, hh]

/-- The trace of `AppendFile` when the source opens: the calls of the body, then
the deferred close. -/
theorem AppendFile_open_ok (env : Env) (tzw : TarZstWriter) (dstPth srcFn : String)
    (tr : Trace) (f : File) (hopen : env.osOpen tr srcFn = .ok f) :
    AppendFile env tzw dstPth srcFn tr =
      ((AppendFileBody env tzw dstPth srcFn f (tr ++ [Call.osOpen srcFn])).1,
        (AppendFileBody env tzw dstPth srcFn f (tr ++ [Call.osOpen srcFn])).2 ++
          [Call.fileClose f]) := by
  unfold AppendFile osOpen fileClose
  rw [hopen]

/-! ## Close -/

/-- C1 (failing input): the framer finalizer fails with `t`, the compressor
finalizer succeeds and the sink finalizer fails with `f`. All three
finalizers run, but the error `Close` returns is the join of the sink
failure alone: the framer failure `t` is not among the errors reachable from
it and does not occur in its message. -/
theorem Close_drops_framer_failure :
    closeEnvTF.tarClose [] tzw0.tarWr = some (.base "t") ∧
    (Close closeEnvTF tzw0 []).2 =
      [Call.tarClose tzw0.tarWr, Call.zstClose tzw0.zstWr, Call.fileClose tzw0.file] ∧
    (Close closeEnvTF tzw0 []).1 =
      some (.join [.wrap "TarZstWriter.Close: file: " (.base "f")]) ∧
    GoError.base "t" ∉
      (GoError.join [.wrap "TarZstWriter.Close: file: " (.base "f")]).chain ∧
    GoError.base "f" ∈
      (GoError.join [.wrap "TarZstWriter.Close: file: " (.base "f")]).chain ∧
    (Close closeEnvTF tzw0 []).1.map GoError.Error = some "TarZstWriter.Close: file: f" := by
  refine ⟨rfl, by decide, rfl, ?_, ?_, by decide⟩
  · simp [GoError.chain, GoError.chainList]
  · simp [GoError.chain, GoError.chainList]

/-- C2: whatever the three finalizers return, `Close` calls each of them
exactly once, in the order framer, compressor, sink: the calls it adds to the
trace are exactly `tarWr.Close`, `zstWr.Close`, `file.Close`. -/
theorem Close_invokes_all_finalizers_in_order (env : Env) (tzw : TarZstWriter)
    (tr : Trace) :
    (Close env tzw tr).2 =
      tr ++ [Call.tarClose tzw.tarWr, Call.zstClose tzw.zstWr, Call.fileClose tzw.file] := by
  simp [Close, tarWrClose, zstWrClose, fileClose]

/-- C3: `Close` returns nil exactly when the framer finalizer, the
compressor finalizer and the sink finalizer all return nil. -/
theorem Close_nil_iff_all_nil (env : Env) (tzw : TarZstWriter) (tr : Trace) :
    (Close env tzw tr).1 = none ↔
      env.tarClose tr tzw.tarWr = none ∧
      env.zstClose (tr ++ [Call.tarClose tzw.tarWr]) tzw.zstWr = none ∧
      env.fileClose (tr ++ [Call.tarClose tzw.tarWr] ++ [Call.zstClose tzw.zstWr])
        tzw.file = none := by
  unfold Close tarWrClose zstWrClose fileClose
  simp only []
  generalize env.tarClose tr tzw.tarWr = te
  generalize env.zstClose (tr ++ [Call.tarClose tzw.tarWr]) tzw.zstWr = ze
  generalize env.fileClose (tr ++ [Call.tarClose tzw.tarWr] ++ [Call.zstClose tzw.zstWr])
    tzw.file = fe
  cases te <;> cases ze <;> cases fe <;> simp [errorsJoin]

/-- The error `Close` returns is built from the last finalizer that failed
alone. -/
theorem Close_returns_last_failure (env : Env) (tzw : TarZstWriter) (tr : Trace) :
    (Close env tzw tr).1 =
      match env.fileClose (tr ++ [Call.tarClose tzw.tarWr] ++ [Call.zstClose tzw.zstWr])
          tzw.file,
        env.zstClose (tr ++ [Call.tarClose tzw.tarWr]) tzw.zstWr,
        env.tarClose tr tzw.tarWr with
      | some fe, _, _ => some (.join [.wrap "TarZstWriter.Close: file: " fe])
      | none, some ze, _ => some (.join [.wrap "TarZstWriter.Close: zst: " ze])
      | none, none, some te => some (.join [.wrap "TarZstWriter.Close: tar: " te])
      | none, none, none => none := by
  unfold Close tarWrClose zstWrClose fileClose
  simp only []
  generalize env.tarClose tr tzw.tarWr = te
  generalize env.zstClose (tr ++ [Call.tarClose tzw.tarWr]) tzw.zstWr = ze
  generalize env.fileClose (tr ++ [Call.tarClose tzw.tarWr] ++ [Call.zstClose tzw.zstWr])
    tzw.file = fe
  cases te <;> cases ze <;> cases fe <;> simp [errorsJoin, fmtErrorf]

/-! ## Append -/

/-- C4 (failing input): header write and content copy succeed and `Flush`
fails with `disk full`. The error `Append` returns carries the tag `copy`,
not `flush`: it is the very error returned when instead the content copy
fails with the same cause, although the calls made differ. -/
theorem Append_flush_failure_tagged_copy :
    (Append flushFailEnv tzw0 h0 r0 []).2 =
      [Call.tarWriteHeader tzw0.tarWr h0, Call.tarWrite tzw0.tarWr [104, 105],
        Call.tarFlush tzw0.tarWr] ∧
    (Append flushFailEnv tzw0 h0 r0 []).1 =
      some (.wrap "TarZstWriter.Append: copy: " (.base "disk full")) ∧
    (Append flushFailEnv tzw0 h0 r0 []).1.map GoError.Error =
      some "TarZstWriter.Append: copy: disk full" ∧
    (Append copyFailEnv tzw0 h0 r0 []).2 =
      [Call.tarWriteHeader tzw0.tarWr h0, Call.tarWrite tzw0.tarWr [104, 105]] ∧
    (Append copyFailEnv tzw0 h0 r0 []).1 = (Append flushFailEnv tzw0 h0 r0 []).1 := by
  refine ⟨by decide, rfl, by decide, by decide, rfl⟩

/-- A read error that only prints as `EOF` is a copy failure: `Append`
returns it wrapped and does not flush; `io.EOF` itself ends the copy and the
flush follows. -/
theorem Append_lookalike_EOF_examples :
    (Append okEnv tzw0 h0 rLookalike []).1 =
      some (.wrap "TarZstWriter.Append: copy: " (.base "EOF")) ∧
    (Append okEnv tzw0 h0 rLookalike []).2 =
      [Call.tarWriteHeader tzw0.tarWr h0, Call.tarWrite tzw0.tarWr [104, 105]] ∧
    (Append okEnv tzw0 h0 r0 []).1 = none ∧
    (Append okEnv tzw0 h0 r0 []).2 =
      [Call.tarWriteHeader tzw0.tarWr h0, Call.tarWrite tzw0.tarWr [104, 105],
        Call.tarFlush tzw0.tarWr] :=
  ⟨rfl, by decide, rfl, by decide⟩

/-! ## AppendFile -/

/-- The headers `AppendFile` writes when the source opens and `Lstat`
succeeds. -/
theorem AppendFile_headers (env : Env) (tzw : TarZstWriter) (dstPth srcFn : String)
    (tr : Trace) (f : File) (fi : FileInfo)
    (hopen : env.osOpen tr srcFn = .ok f)
    (hstat : env.osLstat (tr ++ [Call.osOpen srcFn]) srcFn = .ok fi) :
    headersWritten (AppendFile env tzw dstPth srcFn tr).2 =
      headersWritten tr ++
        (if fi.mode &&& ModeSymlink ≠ 0 then
          match env.osReadlink (tr ++ [Call.osOpen srcFn] ++ [Call.osLstat srcFn]) srcFn with
          | .error _ => []
          | .ok nm =>
            [{ Name := dstPth, Mode := Int.ofNat fi.mode, Size := fi.size, Linkname := nm }]
        else
          [{ Name := dstPth, Mode := Int.ofNat fi.mode, Size := fi.size, Linkname := "" }]) := by
  obtain ⟨mid, hmid, -, hh⟩ :=
    AppendFileBody_trace env tzw dstPth srcFn f (tr ++ [Call.osOpen srcFn])
  rw [hstat] at hh
  rw [AppendFile_open_ok env tzw dstPth srcFn tr f hopen]
  simp only [hmid, headersWritten_append, hh]
  simp [headersWritten]

/-- C6 (failing input): `/src/lnk` is a symbolic link to the ten-byte file
`abc`; `Lstat` reports the link bit and size 3, `Readlink` returns `abc`.
The one header `AppendFile` passes on has link target `abc` and declared
size 3, not 0; the ten bytes of the target are then copied under it, the
framer refuses them and `AppendFile` fails without flushing. -/
theorem AppendFile_symlink_size_not_zero :
    symlinkEnv.osLstat [Call.osOpen "/src/lnk"] "/src/lnk" = .ok ⟨134218239, 3⟩ ∧
    134218239 &&& ModeSymlink ≠ 0 ∧
    symlinkEnv.osReadlink [Call.osOpen "/src/lnk", Call.osLstat "/src/lnk"] "/src/lnk" =
      .ok "abc" ∧
    headersWritten (AppendFile symlinkEnv tzw0 "lnk" "/src/lnk" []).2 =
      [{ Name := "lnk", Mode := 134218239, Size := 3, Linkname := "abc" }] ∧
    (¬ ∀ h ∈ headersWritten (AppendFile symlinkEnv tzw0 "lnk" "/src/lnk" []).2, h.Size = 0) ∧
    (AppendFile symlinkEnv tzw0 "lnk" "/src/lnk" []).2 =
      [Call.osOpen "/src/lnk", Call.osLstat "/src/lnk", Call.osReadlink "/src/lnk",
        Call.tarWriteHeader tzw0.tarWr
          { Name := "lnk", Mode := 134218239, Size := 3, Linkname := "abc" },
        Call.tarWrite tzw0.tarWr [48, 49, 50, 51, 52, 53, 54, 55, 56, 57],
        Call.fileClose ⟨"/src/lnk", 4⟩] ∧
    (AppendFile symlinkEnv tzw0 "lnk" "/src/lnk" []).1.map GoError.Error =
      some "TarZstWriter.AppendFile: TarZstWriter.Append: copy: archive/tar: write too long" := by
  refine ⟨rfl, by decide, rfl, by decide, by decide, by decide, by decide⟩

/-- C7: when the source opens and `Lstat` returns `fi`, every header
`AppendFile` passes to the framer has the destination path as name, the mode
of `fi` as mode and the size of `fi` as size, and an empty link target when
`fi` is not a symbolic link; exactly one header is passed, unless `fi` is a
symbolic link whose target cannot be read, when none is. -/
theorem AppendFile_header_from_lstat (env : Env) (tzw : TarZstWriter)
    (dstPth srcFn : String) (tr : Trace) (f : File) (fi : FileInfo)
    (hopen : env.osOpen tr srcFn = .ok f)
    (hstat : env.osLstat (tr ++ [Call.osOpen srcFn]) srcFn = .ok fi) :
    ∃ hs : List Header,
      headersWritten (AppendFile env tzw dstPth srcFn tr).2 = headersWritten tr ++ hs ∧
      (∀ h ∈ hs, h.Name = dstPth ∧ h.Mode = Int.ofNat fi.mode ∧ h.Size = fi.size ∧
        (fi.mode &&& ModeSymlink = 0 → h.Linkname = "")) ∧
      hs.length =
        (if fi.mode &&& ModeSymlink ≠ 0 ∧
            (env.osReadlink (tr ++ [Call.osOpen srcFn] ++ [Call.osLstat srcFn]) srcFn).toBool
              = false
          then 0 else 1) := by
  refine ⟨_, AppendFile_headers env tzw dstPth srcFn tr f fi hopen hstat, ?_, ?_⟩
  · intro h hmem
    by_cases hsym : fi.mode &&& ModeSymlink ≠ 0
    · rw [if_pos hsym] at hmem
      cases hrl : env.osReadlink (tr ++ [Call.osOpen srcFn] ++ [Call.osLstat srcFn]) srcFn with
      | error e => rw [hrl] at hmem; simp at hmem
      | ok nm =>
        rw [hrl] at hmem
        simp only [List.mem_singleton] at hmem
        subst hmem
        exact ⟨rfl, rfl, rfl, fun h0 => absurd h0 hsym⟩
    · rw [if_neg hsym] at hmem
      simp only [List.mem_singleton] at hmem
      subst hmem
      exact ⟨rfl, rfl, rfl, fun _ => rfl⟩
  · by_cases hsym : fi.mode &&& ModeSymlink ≠ 0
    · cases hrl : env.osReadlink (tr ++ [Call.osOpen srcFn] ++ [Call.osLstat srcFn]) srcFn <;>
        simp [hsym, Except.toBool]
    · simp [hsym]

/-- C7 at a regular file of two bytes with mode `0644`. -/
theorem AppendFile_header_from_lstat_witness :
    ∃ hs : List Header,
      headersWritten (AppendFile okEnv tzw0 "d/a.txt" "a.txt" []).2 = headersWritten [] ++ hs ∧
      (∀ h ∈ hs, h.Name = "d/a.txt" ∧ h.Mode = Int.ofNat 420 ∧ h.Size = (2 : Int) ∧
        (420 &&& ModeSymlink = 0 → h.Linkname = "")) ∧
      hs.length =
        (if 420 &&& ModeSymlink ≠ 0 ∧
            (okEnv.osReadlink ([] ++ [Call.osOpen "a.txt"] ++ [Call.osLstat "a.txt"])
              "a.txt").toBool = false
          then 0 else 1) :=
  AppendFile_header_from_lstat okEnv tzw0 "d/a.txt" "a.txt" []
    ⟨"a.txt", 3⟩ ⟨420, 2⟩ rfl rfl

/-- C8: when opening the source fails, `AppendFile` returns the wrapped
error having made no call but `os.Open`: nothing is closed, nothing is
written to the framer. When it succeeds with the file `f`, the calls after
`os.Open` are calls that close no file, followed by one last call, the close
of `f`: the source is closed exactly once, on every path, before returning. -/
theorem AppendFile_releases_source (env : Env) (tzw : TarZstWriter)
    (dstPth srcFn : String) (tr : Trace) :
    match env.osOpen tr srcFn with
    | .error err =>
      AppendFile env tzw dstPth srcFn tr =
        (some (fmtErrorf ("TarZstWriter.AppendFile: open \x60" ++ srcFn ++ "\x60: ") err),
          tr ++ [Call.osOpen srcFn])
    | .ok f =>
      ∃ mid : Trace,
        (AppendFile env tzw dstPth srcFn tr).2 =
          tr ++ [Call.osOpen srcFn] ++ mid ++ [Call.fileClose f] ∧
        ∀ c ∈ mid, c.isFileClose = false := by
  cases hopen : env.osOpen tr srcFn with
  | error err =>
    show AppendFile env tzw dstPth srcFn tr = _
    unfold AppendFile osOpen
    rw [hopen]
  | ok f =>
    show ∃ mid : Trace, _
    obtain ⟨mid, hmid, hc, -⟩ :=
      AppendFileBody_trace env tzw dstPth srcFn f (tr ++ [Call.osOpen srcFn])
    exact ⟨mid, by rw [AppendFile_open_ok env tzw dstPth srcFn tr f hopen, hmid], hc⟩

/-! ## createTarZst -/

/-- C9: after `os.MkdirAll`, if `os.Create` fails, `createTarZst` returns no
writer and the wrapped error; if it gives `file` and `zstd.NewWriter` fails,
`file` is closed (the last call made) and no writer and the wrapped error
are returned; otherwise the writer returned, with a nil error, holds `file`,
the encoder bound to `file` and the tar writer bound to that encoder, and
`file` is not closed. -/
theorem createTarZst_outcomes (env : Env) (fn : String) (opts : Option (List EOption))
    (tr : Trace) :
    let o : List EOption :=
      opts.getD [EOption.WithEncoderLevel EncoderLevel.SpeedBestCompression]
    let t1 : Trace := tr ++ [Call.osMkdirAll (env.filepathDir fn) 493, Call.osCreate fn]
    match env.osCreate (tr ++ [Call.osMkdirAll (env.filepathDir fn) 493]) fn with
    | .error err =>
      createTarZst env fn opts tr =
        ((none, some (fmtErrorf "createTarZst: create output file: " err)), t1)
    | .ok file =>
      match env.zstdNewWriter t1 file o with
      | some err =>
        createTarZst env fn opts tr =
          ((none, some (fmtErrorf "createTarZst: create zstd writer: " err)),
            t1 ++ [Call.zstdNewWriter file o, Call.fileClose file])
      | none =>
        ∃ tzw : TarZstWriter,
          createTarZst env fn opts tr = ((some tzw, none), t1 ++ [Call.zstdNewWriter file o]) ∧
          tzw.file = file ∧ tzw.zstWr.w = file ∧ tzw.zstWr.opts = o ∧
          tzw.tarWr.w = tzw.zstWr := by
  intro o t1
  have ho : (match opts with
      | none => [EOption.WithEncoderLevel EncoderLevel.SpeedBestCompression]
      | some o => o) = o := by
    cases opts <;> rfl
  cases hcr : env.osCreate (tr ++ [Call.osMkdirAll (env.filepathDir fn) 493]) fn with
  | error err =>
    show createTarZst env fn opts tr = _
    simp [createTarZst, osMkdirAll, osCreate, hcr, t1]
  | ok file =>
    have ht1 : tr ++ [Call.osMkdirAll (env.filepathDir fn) 493] ++ [Call.osCreate fn] = t1 := by
      simp [t1]
    simp only []
    cases hz : env.zstdNewWriter t1 file o with
    | some err =>
      show createTarZst env fn opts tr = _
      simp only [createTarZst, osMkdirAll, osCreate, hcr, zstdNewWriter, fileClose, ho, ht1, hz]
      simp
    | none =>
      show ∃ tzw : TarZstWriter, _
      refine ⟨⟨file, ⟨file, o⟩, ⟨⟨file, o⟩⟩⟩, ?_, rfl, rfl, rfl, rfl⟩
      simp only [createTarZst, osMkdirAll, osCreate, hcr, zstdNewWriter, fileClose, ho, ht1, hz]
      rfl

/-- The function `createTarZst` on two concrete environments: success with the
default options, and failure of `zstd.NewWriter` (the file is closed, no
writer is returned). -/
theorem createTarZst_examples :
    createTarZst okEnv "a.tar.zst" none [] =
      ((some ⟨⟨"a.tar.zst", 3⟩,
          ⟨⟨"a.tar.zst", 3⟩, [EOption.WithEncoderLevel EncoderLevel.SpeedBestCompression]⟩,
          ⟨⟨⟨"a.tar.zst", 3⟩,
            [EOption.WithEncoderLevel EncoderLevel.SpeedBestCompression]⟩⟩⟩, none),
        [Call.osMkdirAll "." 493, Call.osCreate "a.tar.zst",
          Call.zstdNewWriter ⟨"a.tar.zst", 3⟩
            [EOption.WithEncoderLevel EncoderLevel.SpeedBestCompression]]) ∧
    createTarZst zstdFailEnv "a.tar.zst" (some []) [] =
      ((none, some (.wrap "createTarZst: create zstd writer: " (.base "bad option"))),
        [Call.osMkdirAll "." 493, Call.osCreate "a.tar.zst",
          Call.zstdNewWriter ⟨"a.tar.zst", 3⟩ [], Call.fileClose ⟨"a.tar.zst", 3⟩]) :=
  ⟨rfl, rfl⟩

end TarZst
